import Mathlib

/-!
Verification development for the Eco AI chat client
(`src/pages/auth/signup.tsx` and companions).

The pipeline under study is the streaming relay endpoint (`handler`) and
the incremental renderer (`sendTextMessage` / `sendUserPrompt`), plus the
conversation-memory digest (`generateConversationSummary`).  JavaScript
strings are modelled as `List Char`; wire bytes as `List Nat`; `JSON.parse`
as a fuel-indexed recursive-descent parser over `List Char`.
-/

namespace EcoAI

/-- JS whitespace for `String.prototype.trim` and the regex class `\s`
(ASCII whitespace plus NBSP and BOM; the exotic Unicode members are
omitted, no input in this development contains them). -/
def isJsWs (c : Char) : Bool :=
  c = ' ' || c = '\t' || c = '\n' || c = '\r' || c = '\x0b' || c = '\x0c' ||
  c = ' ' || c = '﻿'

/-- `s.trim()`. -/
def jsTrim (s : List Char) : List Char :=
  ((s.dropWhile isJsWs).reverse.dropWhile isJsWs).reverse

/-- `s.split('\n')`: split on newline, keeping empty fields; the result is
never empty (JS returns `[""]` on the empty string). -/
def splitNl : List Char → List (List Char)
  | [] => [[]]
  | c :: cs =>
    if c = '\n' then [] :: splitNl cs
    else
      match splitNl cs with
      | h :: t => (c :: h) :: t
      | [] => [[c]]

/-- JSON values as produced by `JSON.parse`.  Numbers keep their raw
lexeme: no claim inspects numeric values, only structure and strings. -/
inductive Json where
  | null
  | bool (b : Bool)
  | num (raw : List Char)
  | str (s : List Char)
  | arr (elems : List Json)
  | obj (members : List (List Char × Json))
deriving Repr

/-- JSON whitespace (RFC 8259: space, tab, newline, carriage return). -/
def isJsonWs (c : Char) : Bool :=
  c = ' ' || c = '\t' || c = '\n' || c = '\r'

def skipJWs (s : List Char) : List Char := s.dropWhile isJsonWs

def hexVal (c : Char) : Option Nat :=
  if '0' ≤ c ∧ c ≤ '9' then some (c.toNat - '0'.toNat)
  else if 'a' ≤ c ∧ c ≤ 'f' then some (c.toNat - 'a'.toNat + 10)
  else if 'A' ≤ c ∧ c ≤ 'F' then some (c.toNat - 'A'.toNat + 10)
  else none

/-- Body of a JSON string literal (after the opening quote), fuel-indexed.
Returns the decoded content and the remainder after the closing quote. -/
def parseJStrAux : Nat → List Char → Option (List Char × List Char)
  | 0, _ => none
  | _, [] => none
  | fuel + 1, c :: cs =>
    if c = '"' then some ([], cs)
    else if c = '\\' then
      match cs with
      | [] => none
      | e :: cs2 =>
        if e = 'u' then
          match cs2 with
          | h1 :: h2 :: h3 :: h4 :: cs3 =>
            match hexVal h1, hexVal h2, hexVal h3, hexVal h4 with
            | some a, some b, some d, some e4 =>
              (parseJStrAux fuel cs3).map
                (fun r => (Char.ofNat (a * 4096 + b * 256 + d * 16 + e4) :: r.1, r.2))
            | _, _, _, _ => none
          | _ => none
        else
          let dec : Option Char :=
            if e = '"' then some '"'
            else if e = '\\' then some '\\'
            else if e = '/' then some '/'
            else if e = 'b' then some '\x08'
            else if e = 'f' then some '\x0c'
            else if e = 'n' then some '\n'
            else if e = 'r' then some '\r'
            else if e = 't' then some '\t'
            else none
          match dec with
          | some d => (parseJStrAux fuel cs2).map (fun r => (d :: r.1, r.2))
          | none => none
    else if c.toNat < 0x20 then none
    else (parseJStrAux fuel cs).map (fun r => (c :: r.1, r.2))

def parseJStr (s : List Char) : Option (List Char × List Char) :=
  parseJStrAux (s.length + 1) s

def isDigitCh (c : Char) : Bool := '0' ≤ c && c ≤ '9'

/-- Number lexeme: optional sign, digits, optional fraction and exponent. -/
def parseJNum (s : List Char) : Option (List Char × List Char) :=
  let (sign, s1) := match s with
    | '-' :: rest => (['-'], rest)
    | _ => (([] : List Char), s)
  let intPart := s1.takeWhile isDigitCh
  if intPart.isEmpty then none
  else
    let s2 := s1.drop intPart.length
    let (fracPart, s3) := match s2 with
      | '.' :: rest =>
        let ds := rest.takeWhile isDigitCh
        if ds.isEmpty then (([] : List Char), s2)
        else ('.' :: ds, rest.drop ds.length)
      | _ => (([] : List Char), s2)
    let (expPart, s4) := match s3 with
      | e :: rest =>
        if e = 'e' ∨ e = 'E' then
          let (esign, rest2) := match rest with
            | '+' :: r => ((['+'] : List Char), r)
            | '-' :: r => ((['-'] : List Char), r)
            | _ => (([] : List Char), rest)
          let ds := rest2.takeWhile isDigitCh
          if ds.isEmpty then (([] : List Char), s3)
          else (e :: (esign ++ ds), rest2.drop ds.length)
        else (([] : List Char), s3)
      | _ => (([] : List Char), s3)
    some (sign ++ intPart ++ fracPart ++ expPart, s4)

mutual

/-- One JSON value, fuel-indexed recursive descent.  Fuel only bounds
nesting/iteration; `s.length + 1` is always sufficient since every
recursive call consumes at least one character first. -/
def parseJValue : Nat → List Char → Option (Json × List Char)
  | 0, _ => none
  | fuel + 1, s =>
    match skipJWs s with
    | [] => none
    | c :: cs =>
      if c = '\x7b' then
        match skipJWs cs with
        | '\x7d' :: rest => some (.obj [], rest)
        | cs2 => parseJMembers fuel cs2 []
      else if c = '[' then
        match skipJWs cs with
        | ']' :: rest => some (.arr [], rest)
        | cs2 => parseJElems fuel cs2 []
      else if c = '"' then
        (parseJStr cs).map (fun r => (.str r.1, r.2))
      else if c = 't' then
        match cs with
        | 'r' :: 'u' :: 'e' :: rest => some (.bool true, rest)
        | _ => none
      else if c = 'f' then
        match cs with
        | 'a' :: 'l' :: 's' :: 'e' :: rest => some (.bool false, rest)
        | _ => none
      else if c = 'n' then
        match cs with
        | 'u' :: 'l' :: 'l' :: rest => some (.null, rest)
        | _ => none
      else
        (parseJNum (c :: cs)).map (fun r => (.num r.1, r.2))

/-- Object members, first member's leading whitespace already skipped. -/
def parseJMembers : Nat → List Char → List (List Char × Json) →
    Option (Json × List Char)
  | 0, _, _ => none
  | fuel + 1, s, acc =>
    match s with
    | '"' :: cs =>
      match parseJStr cs with
      | some (key, rest) =>
        match skipJWs rest with
        | ':' :: rest2 =>
          match parseJValue fuel rest2 with
          | some (v, rest3) =>
            match skipJWs rest3 with
            | ',' :: rest4 => parseJMembers fuel (skipJWs rest4) (acc ++ [(key, v)])
            | '\x7d' :: rest4 => some (.obj (acc ++ [(key, v)]), rest4)
            | _ => none
          | none => none
        | _ => none
      | none => none
    | _ => none

/-- Array elements. -/
def parseJElems : Nat → List Char → List Json → Option (Json × List Char)
  | 0, _, _ => none
  | fuel + 1, s, acc =>
    match parseJValue fuel s with
    | some (v, rest) =>
      match skipJWs rest with
      | ',' :: rest2 => parseJElems fuel rest2 (acc ++ [v])
      | ']' :: rest2 => some (.arr (acc ++ [v]), rest2)
      | _ => none
    | none => none

end

/-- `JSON.parse`: one value, then only trailing whitespace; `none` models
a thrown `SyntaxError`. -/
def parseJson (s : List Char) : Option Json :=
  match parseJValue (s.length + 1) s with
  | some (j, rest) => if (skipJWs rest).isEmpty then some j else none
  | none => none

/-! ## Incremental renderer: stream decoding and event parsing

Model of the read loop in `sendTextMessage`
(`src/pages/auth/signup.tsx:799-831`). -/

/-- Property lookup on a parsed JSON object; JS object literals with
duplicate keys keep the last occurrence, so lookup scans from the end. -/
def jLookup (kvs : List (List Char × Json)) (k : List Char) : Option Json :=
  (kvs.reverse.find? (fun p => p.1 = k)).map (fun p => p.2)

/-- `x.k` on a non-null JS value: members for objects, `undefined`
(`none`) otherwise. -/
def plainGet : Json → List Char → Option Json
  | .obj kvs, k => jLookup kvs k
  | _, _ => none

/-- `x?.k`: `undefined` when `x` is `undefined`/`null`/non-object. -/
def jGetOpt : Option Json → List Char → Option Json
  | some (.obj kvs), k => jLookup kvs k
  | _, _ => none

/-- `x?.[i]`: element for arrays, `undefined` otherwise. -/
def jIndexOpt : Option Json → Nat → Option Json
  | some (.arr xs), i => xs.get? i
  | _, _ => none

/-- `parsed.choices?.[0]?.delta?.content ?? ''` followed by the truthiness
test `if (delta)`, wrapped in the loop's try/catch: `JSON.parse` failure,
the `TypeError` from `.choices` on `null`, and a missing/empty/non-string
delta all leave the accumulated content unchanged, so they are collapsed
to the empty delta (the declared payload type has `content?: string`). -/
def payloadDelta (payload : List Char) : List Char :=
  match parseJson payload with
  | none => []
  | some .null => []
  | some j =>
    match jGetOpt (jGetOpt (jIndexOpt (plainGet j "choices".toList) 0)
        "delta".toList) "content".toList with
    | some (.str s) => s
    | _ => []

/-- `trimmed.replace(/^data:\s*/, '')`, applied only after the
`startsWith('data:')` guard. -/
def stripDataTag (t : List Char) : List Char :=
  (t.drop 5).dropWhile isJsWs

def doneLit : List Char := "[DONE]".toList

/-- What one iteration of `for (const line of lines)` does: nothing,
terminate the turn, or append a delta. -/
inductive LineAct where
  | skip
  | done
  | append (d : List Char)
deriving DecidableEq, Repr

/-- The `for (const line of lines)` body of the read loop: blank and
non-`data:` lines are skipped, the `[DONE]` sentinel terminates
(`setIsStreaming(false); return`), a non-empty delta is appended, and a
malformed or delta-less payload is skipped. -/
def lineAct (line : List Char) : LineAct :=
  let t := jsTrim line
  if t.isEmpty then .skip
  else if ¬ ("data:".toList.isPrefixOf t) then .skip
  else
    let payload := stripDataTag t
    if payload = doneLit then .done
    else
      let d := payloadDelta payload
      if d.isEmpty then .skip
      else .append d

/-- The line loop over one decoded chunk; the second component records
whether the sentinel was hit (the early `return`). -/
def processLines (content : List Char) : List (List Char) → List Char × Bool
  | [] => (content, false)
  | line :: rest =>
    match lineAct line with
    | .skip => processLines content rest
    | .done => (content, true)
    | .append d => processLines (content ++ d) rest

/-- Bytes needed for a UTF-8 sequence with this lead byte (0 = invalid
lead). -/
def utf8NeedLen (b : Nat) : Nat :=
  if b < 128 then 1
  else if b < 192 then 0
  else if b < 224 then 2
  else if b < 240 then 3
  else if b < 248 then 4
  else 0

def isUtf8Cont (b : Nat) : Bool := 128 ≤ b && b < 192

def utf8Repl : Char := '�'

/-- Code point of a complete UTF-8 sequence. -/
def utf8Complete : List Nat → Char
  | [b] => Char.ofNat b
  | [b, c] => Char.ofNat ((b - 192) * 64 + (c - 128))
  | [b, c, d] => Char.ofNat ((b - 224) * 4096 + (c - 128) * 64 + (d - 128))
  | [b, c, d, e] =>
    Char.ofNat ((b - 240) * 262144 + (c - 128) * 4096 + (d - 128) * 64 + (e - 128))
  | _ => utf8Repl

/-- One byte through the incremental decoder: `pend` holds the bytes of
an incomplete trailing sequence carried over between chunks, exactly the
behaviour of `TextDecoder('utf-8').decode(value, { stream: true })`. -/
def utf8Step (st : List Char × List Nat) (b : Nat) : List Char × List Nat :=
  let out := st.1
  let pend := st.2
  match pend with
  | [] =>
    let n := utf8NeedLen b
    if n = 1 then (out ++ [Char.ofNat b], [])
    else if n = 0 then (out ++ [utf8Repl], [])
    else (out, [b])
  | lead :: _ =>
    if isUtf8Cont b then
      let pend2 := pend ++ [b]
      if pend2.length = utf8NeedLen lead then (out ++ [utf8Complete pend2], [])
      else (out, pend2)
    else
      let n := utf8NeedLen b
      if n = 1 then (out ++ [utf8Repl, Char.ofNat b], [])
      else if n = 0 then (out ++ [utf8Repl, utf8Repl], [])
      else (out ++ [utf8Repl], [b])

/-- One `decoder.decode(value, { stream: true })` call: decoded text of
this chunk plus the new carry-over. -/
def utf8DecodeChunk (pend : List Nat) (bytes : List Nat) : List Char × List Nat :=
  bytes.foldl utf8Step ([], pend)

/-- The `while (true)` read loop of `sendTextMessage`: each upstream read
is decoded, split on newlines, and folded through `processLines`; the
[DONE] sentinel short-circuits the remaining chunks.  Returns the
accumulated assistant content and whether the sentinel was seen. -/
def runReadLoop (content : List Char) (pend : List Nat) :
    List (List Nat) → List Char × Bool
  | [] => (content, false)
  | chunk :: chunks =>
    let dec := utf8DecodeChunk pend chunk
    let r := processLines content (splitNl dec.1)
    if r.2 then (r.1, true) else runReadLoop r.1 dec.2 chunks

/-- UTF-8 bytes of an ASCII string (all concrete wire inputs in this
development are ASCII, where code units and bytes coincide). -/
def asciiBytes (s : String) : List Nat := s.toList.map Char.toNat

/-! ## Renderer turn state: `sendTextMessage` and `sendUserPrompt` -/

inductive Role where
  | user
  | assistant
  | system
deriving DecidableEq, Repr

/-- A chat message as the renderer holds it; `id`/`createdAt` are omitted
(no claim observes them). -/
structure Msg where
  role : Role
  content : List Char
deriving DecidableEq, Repr

/-- `SYSTEM_PROMPT` from `src/pages/auth/signup.tsx:270-274`. -/
def systemPromptMsg : Msg :=
  ⟨.system,
   ("You are Eco AI 🌿, an intelligent, calm, and creative assistant built " ++
    "by Chandon Kumar. Keep replies helpful, concise, and lightly witty with " ++
    "sparing emoji use. Reference earlier context when it helps, ask " ++
    "clarifying questions when unsure, and always introduce yourself as Eco " ++
    "AI when asked about your identity.").toList⟩

def memoryMsg (memory : List Char) : Msg :=
  ⟨.system, "Long-term memory summary: ".toList ++ memory⟩

/-- The error string `setError` installs in the catch block. -/
def genericUiError : List Char := "Something went wrong, try again.".toList

/-- The catch block's filter `msg.role !== 'assistant' || msg.content`:
keep everything except assistant messages with empty (falsy) content. -/
def keepMsg (m : Msg) : Bool := !(m.role == Role.assistant) || !(m.content == [])

/-- How one turn's fetch of `/api/chat` resolves: the fetch itself throws,
or a response arrives with a status, a body (or not), the byte chunks the
reader will deliver, and how the stream ends after those chunks. -/
inductive StreamEndKind where
  | normal
  | errored
deriving DecidableEq, Repr

inductive FetchOutcome where
  | networkError
  | response (status : Nat) (hasBody : Bool) (chunks : List (List Nat))
      (endKind : StreamEndKind)
deriving DecidableEq, Repr

/-- Observable state at the end of one renderer turn: message list,
`isStreaming`, `error`, and the message list sent upstream (`none` when
no request was issued). -/
structure TurnState where
  messages : List Msg
  isStreaming : Bool
  error : Option (List Char)
  request : Option (List Msg)
deriving DecidableEq, Repr

/-- `sendTextMessage` (`src/pages/auth/signup.tsx:762-839`): empty history
returns without a request; otherwise one POST is issued with the system
prompt (plus memory digest when non-empty) prefixed.  A non-ok or bodyless
response throws into the catch block, as does a read error before the
sentinel; the catch block clears streaming, sets the generic error and
filters empty assistant messages out of the list. -/
def sendTextMessage (memory : List Char) (msgs : List Msg) (history : List Msg)
    (outcome : FetchOutcome) : TurnState :=
  if history.isEmpty then ⟨msgs, false, none, none⟩
  else
    let sys := if memory.isEmpty then [systemPromptMsg]
               else [systemPromptMsg, memoryMsg memory]
    let req := sys ++ history
    match outcome with
    | .networkError => ⟨msgs.filter keepMsg, false, some genericUiError, some req⟩
    | .response status hasBody chunks endKind =>
      if decide (200 ≤ status ∧ status < 300) && hasBody then
        let r := runReadLoop [] [] chunks
        let msgs2 := msgs ++ [⟨.assistant, r.1⟩]
        if r.2 then ⟨msgs2, false, none, some req⟩
        else match endKind with
          | .normal => ⟨msgs2, false, none, some req⟩
          | .errored => ⟨msgs2.filter keepMsg, false, some genericUiError, some req⟩
      else ⟨msgs.filter keepMsg, false, some genericUiError, some req⟩

/-- `mapMessagesToApi` (`src/pages/auth/signup.tsx:438-448`). -/
def mapMessagesToApi (history : List Msg) : List Msg :=
  ((history.filter (fun m => m.role == Role.user || m.role == Role.assistant)).map
    (fun m => ⟨m.role, jsTrim m.content⟩)).filter (fun m => !m.content.isEmpty)

/-- UI state visible to `sendUserPrompt`. -/
structure UiState where
  messages : List Msg
  isStreaming : Bool
  isHydrated : Bool
  error : Option (List Char)
  memory : List Char
deriving DecidableEq, Repr

/-- `sendUserPrompt` (`src/pages/auth/signup.tsx:841-856`): blank prompts,
an in-flight stream, or a non-hydrated UI are rejected before any state
change; otherwise the trimmed prompt is appended as a user message and the
turn is delegated to `sendTextMessage`. -/
def sendUserPrompt (st : UiState) (prompt : List Char) (outcome : FetchOutcome) :
    TurnState :=
  let trimmed := jsTrim prompt
  if trimmed.isEmpty || st.isStreaming || !st.isHydrated then
    ⟨st.messages, st.isStreaming, st.error, none⟩
  else
    let userMessage : Msg := ⟨.user, trimmed⟩
    let updated := st.messages ++ [userMessage]
    sendTextMessage st.memory updated (mapMessagesToApi updated) outcome

/-! ## Conversation memory digest -/

def MAX_MEMORY_MESSAGES : Nat := 6

/-- `history.slice(-n)`. -/
def sliceLast (n : Nat) (l : List Msg) : List Msg := l.drop (l.length - n)

def isUserOrAssistant (m : Msg) : Bool :=
  m.role == Role.user || m.role == Role.assistant

/-- `content.replace(/\s+/g, ' ')`: collapse whitespace runs to single
spaces (the flag tracks whether the previous character was whitespace). -/
def collapseWsAux : Bool → List Char → List Char
  | _, [] => []
  | prevWs, c :: cs =>
    if isJsWs c then
      if prevWs then collapseWsAux true cs
      else ' ' :: collapseWsAux true cs
    else c :: collapseWsAux false cs

def normalizeWs (s : List Char) : List Char := jsTrim (collapseWsAux false s)

def speakerOf (r : Role) : List Char :=
  if r == Role.assistant then "Eco AI".toList else "User".toList

/-- The `.map` body building one summary line: `"Speaker: content"` with
whitespace normalized, or nothing when the content normalizes away. -/
def summaryLine (m : Msg) : Option (List Char) :=
  let content := normalizeWs m.content
  if content.isEmpty then none
  else some (speakerOf m.role ++ ": ".toList ++ content)

/-- `.map(...).filter(Boolean)` over the recent messages. -/
def summaryLines (recent : List Msg) : List (List Char) :=
  recent.filterMap summaryLine

/-- The joined digest before the length cap: `lines.join(' | ')` over the
non-empty normalized lines of the last six user/assistant messages. -/
def conversationDigest (history : List Msg) : List Char :=
  List.intercalate " | ".toList
    (summaryLines (sliceLast MAX_MEMORY_MESSAGES (history.filter isUserOrAssistant)))

/-- `generateConversationSummary` (`src/pages/auth/signup.tsx:322-344`). -/
def generateConversationSummary (history : List Msg) : List Char :=
  let recent := sliceLast MAX_MEMORY_MESSAGES (history.filter isUserOrAssistant)
  if recent.isEmpty then []
  else
    let lines := summaryLines recent
    if lines.isEmpty then []
    else
      let summary := List.intercalate " | ".toList lines
      if 600 < summary.length then summary.take 597 ++ "...".toList
      else summary

/-! ## Relay endpoint

Model of the API `handler` (`src/pages/auth/signup.tsx:133-196`). -/

/-- Events the node `Readable` wrapped around the upstream body emits. -/
inductive UpEvent where
  | data (chunk : List Nat)
  | errored
  | ended
deriving DecidableEq, Repr

/-- The upstream `fetch` result: HTTP status, whether a body is present,
and the events of that body stream. -/
structure UpstreamResponse where
  status : Nat
  hasBody : Bool
  events : List UpEvent
deriving DecidableEq, Repr

/-- What the relay writes back: a JSON error object with this `error`
string, or a forwarded stream (`written` chunks; `closed` records whether
`res.end()` was reached). -/
inductive RelayBody where
  | json (error : List Char)
  | stream (written : List (List Nat)) (closed : Bool)
deriving DecidableEq, Repr

structure RelayResult where
  status : Nat
  body : RelayBody
  upstreamCalled : Bool
deriving DecidableEq, Repr

/-- The `data`-handler writes each chunk through `res.write` until the
first `error` or `end` event ends the response. -/
def pipeWritten : List UpEvent → List (List Nat)
  | [] => []
  | .data c :: es => c :: pipeWritten es
  | _ => []

def pipeClosed : List UpEvent → Bool
  | [] => false
  | .data _ :: es => pipeClosed es
  | _ => true

/-- `requestBody.messages` on the `JSON.parse` result: throws (`error`)
on `null`, is `undefined` (`ok none`) on non-objects and missing keys. -/
def getMessagesField : Json → Except Unit (Option Json)
  | .null => .error ()
  | .obj kvs => .ok (jLookup kvs "messages".toList)
  | _ => .ok none

/-- `Array.isArray`. -/
def isJsonArray : Option Json → Bool
  | some (.arr _) => true
  | _ => false

def methodNotAllowedMsg : List Char := "Method not allowed".toList

def missingKeyMsg : List Char := "OpenAI API key is not configured.".toList

def invalidPayloadMsg : List Char := "Invalid request payload.".toList

def upstreamFailMsg : List Char := "Failed to fetch from OpenAI.".toList

def unexpectedErrorMsg : List Char := "Something went wrong. Please try again.".toList

/-- The relay `handler`: method guard, credential guard (`!apiKey` is
also true for the empty string), body parse (a `JSON.parse` throw or the
`TypeError` from `.messages` on `null` lands in the catch block, status
500), `Array.isArray` check (status 400), then exactly one upstream call
whose ok-with-body stream is piped verbatim under status 200 and whose
failure is reported with the upstream status and a generic body. -/
def handler (method : List Char) (rawBody : List Char) (apiKey : Option (List Char))
    (upstream : UpstreamResponse) : RelayResult :=
  if ¬ (method = "POST".toList) then ⟨405, .json methodNotAllowedMsg, false⟩
  else if (apiKey.getD []).isEmpty then ⟨500, .json missingKeyMsg, false⟩
  else
    match parseJson rawBody with
    | none => ⟨500, .json unexpectedErrorMsg, false⟩
    | some j =>
      match getMessagesField j with
      | .error _ => ⟨500, .json unexpectedErrorMsg, false⟩
      | .ok mfield =>
        if isJsonArray mfield then
          if decide (200 ≤ upstream.status ∧ upstream.status < 300) && upstream.hasBody
          then ⟨200, .stream (pipeWritten upstream.events) (pipeClosed upstream.events), true⟩
          else ⟨upstream.status, .json upstreamFailMsg, true⟩
        else ⟨400, .json invalidPayloadMsg, false⟩

/-- Modelled from the spec: the byte chunks "read from the upstream body,
in order", up to the point where the upstream stream ends or errors. -/
def upstreamBytesRead (es : List UpEvent) : List (List Nat) :=
  (es.takeWhile (fun e => match e with | .data _ => true | _ => false)).map
    (fun e => match e with | .data c => c | _ => [])

/-- Modelled from the spec: whether the upstream stream "ends or errors"
within the observed events. -/
def upstreamTerminates (es : List UpEvent) : Bool :=
  es.any (fun e => match e with | .data _ => false | _ => true)

/-! ## Helper lemmas -/

theorem processLines_done_prefix (d : List Char) (hd : lineAct d = .done) :
    ∀ (ls1 : List (List Char)) (content : List Char) (ls2 : List (List Char)),
      processLines content (ls1 ++ d :: ls2) = processLines content (ls1 ++ [d]) ∧
      (processLines content (ls1 ++ [d])).2 = true := by
  intro ls1
  induction ls1 with
  | nil =>
    intro content ls2
    simp [processLines, hd]
  | cons l ls ih =>
    intro content ls2
    simp only [List.cons_append, processLines]
    cases h : lineAct l with
    | skip => exact ih content ls2
    | done => simp
    | append d2 => exact ih (content ++ d2) ls2

theorem pipeWritten_eq_read (es : List UpEvent) :
    pipeWritten es = upstreamBytesRead es := by
  induction es with
  | nil => rfl
  | cons e es ih =>
    cases e with
    | data c => simpa [pipeWritten, upstreamBytesRead] using ih
    | errored => rfl
    | ended => rfl

theorem pipeClosed_eq_terminates (es : List UpEvent) :
    pipeClosed es = upstreamTerminates es := by
  induction es with
  | nil => rfl
  | cons e es ih =>
    cases e with
    | data c => simpa [pipeClosed, upstreamTerminates] using ih
    | errored => rfl
    | ended => rfl

theorem sliceLast_length_le (n : Nat) (l : List Msg) :
    (sliceLast n l).length ≤ n := by
  simp only [sliceLast, List.length_drop]
  omega

theorem sliceLast_of_length_le (n : Nat) (l : List Msg) (h : l.length ≤ n) :
    sliceLast n l = l := by
  simp only [sliceLast]
  have : l.length - n = 0 := by omega
  simp [this]

theorem sliceLast_filter_self (h : List Msg) :
    (sliceLast MAX_MEMORY_MESSAGES (h.filter isUserOrAssistant)).filter
        isUserOrAssistant =
      sliceLast MAX_MEMORY_MESSAGES (h.filter isUserOrAssistant) := by
  apply List.filter_eq_self.mpr
  intro a ha
  exact List.of_mem_filter (List.mem_of_mem_drop ha)

theorem sliceLast_recent_idem (h : List Msg) :
    sliceLast MAX_MEMORY_MESSAGES
        ((sliceLast MAX_MEMORY_MESSAGES (h.filter isUserOrAssistant)).filter
          isUserOrAssistant) =
      sliceLast MAX_MEMORY_MESSAGES (h.filter isUserOrAssistant) := by
  rw [sliceLast_filter_self]
  exact sliceLast_of_length_le _ _ (sliceLast_length_le _ _)

/-- Whether a turn with this fetch outcome ends in a network failure or a
non-successful relay response (rather than in the sentinel or a natural
stream end). -/
def turnFails : FetchOutcome → Bool
  | .networkError => true
  | .response status hasBody chunks endKind =>
    !(decide (200 ≤ status ∧ status < 300) && hasBody) ||
    (endKind == StreamEndKind.errored && !(runReadLoop [] [] chunks).2)

/-- Assistant content accumulated before the turn failed (empty when the
failure precedes the first read). -/
def partialContent : FetchOutcome → List Char
  | .networkError => []
  | .response status hasBody chunks _ =>
    if decide (200 ≤ status ∧ status < 300) && hasBody
    then (runReadLoop [] [] chunks).1 else []

/-! ## Claim theorems -/

/-- C2: the claim says any chunking of the event stream — including a
split inside a single event line — accumulates the same final content as
whole delivery.  The code splits each decoded chunk on newlines with no
carry-over of a partial line, so the same event line delivered whole
yields the delta "Hi" but delivered as three chunks split mid-line yields
nothing: the fragments are skipped as a malformed payload and a
non-`data:` line. -/
theorem split_event_line_loses_delta :
    runReadLoop [] []
      [asciiBytes "data: \x7b\x22choices\x22:[\x7b\x22delta\x22:\x7b\x22content\x22:\x22Hi\x22\x7d\x7d]\x7d\n"] =
      ("Hi".toList, false) ∧
    runReadLoop [] []
      [asciiBytes "data: \x7b\x22choices\x22:[\x7b\x22del",
       asciiBytes "ta\x22:\x7b\x22content\x22:\x22Hi\x22\x7d\x7d]\x7d",
       asciiBytes "\n"] =
      ([], false) :=
  ⟨rfl, rfl⟩

/-- C5: with history `[{user, "Hi"}]` and an upstream stream of the two
deltas "Hel" and "lo" followed by `[DONE]`, the final assistant message
content is exactly "Hello". -/
theorem hello_stream_accumulates_hello :
    sendTextMessage [] [] [⟨.user, "Hi".toList⟩]
      (.response 200 true
        [asciiBytes "data: \x7b\x22choices\x22:[\x7b\x22delta\x22:\x7b\x22content\x22:\x22Hel\x22\x7d\x7d]\x7d\n\n",
         asciiBytes "data: \x7b\x22choices\x22:[\x7b\x22delta\x22:\x7b\x22content\x22:\x22lo\x22\x7d\x7d]\x7d\n\n",
         asciiBytes "data: [DONE]\n\n"]
        .normal) =
      ⟨[⟨.assistant, "Hello".toList⟩], false, none,
       some [systemPromptMsg, ⟨.user, "Hi".toList⟩]⟩ :=
  rfl

/-- C7 counterexample: with the credential absent the relay does refuse
before any upstream call, but it answers 500 (not a service-unavailable
503) and its body names the missing API key, so the message is not a
generic one hiding the configuration error from the browser. -/
theorem missing_key_message_exposes_configuration :
    (handler "POST".toList "\x7b\x22messages\x22:[]\x7d".toList none
        ⟨200, true, []⟩ =
      ⟨500, .json missingKeyMsg, false⟩) ∧
    List.IsInfix "API key".toList missingKeyMsg ∧
    (handler "POST".toList "\x7b\x22messages\x22:[]\x7d".toList none
        ⟨200, true, []⟩).status ≠ 503 := by
  refine ⟨rfl, ?_, ?_⟩ <;> decide

/-- C7 amended: for every POST request arriving with the server-held
credential absent, the relay makes no upstream call and responds 500 with
the body message "OpenAI API key is not configured.". -/
theorem missing_key_500_no_upstream :
    ∀ (rawBody : List Char) (upstream : UpstreamResponse),
      handler "POST".toList rawBody none upstream =
        ⟨500, .json missingKeyMsg, false⟩ := by
  intro rawBody upstream
  simp [handler]

/-- C8: invoking the prompt-submission operation while a turn is
streaming is rejected: the message list is unchanged, no outbound request
is issued, and the streaming flag and error are untouched. -/
theorem streaming_turn_rejects_submission :
    ∀ (msgs : List Msg) (hydrated : Bool) (err : Option (List Char))
      (memory : List Char) (prompt : List Char) (outcome : FetchOutcome),
      sendUserPrompt ⟨msgs, true, hydrated, err, memory⟩ prompt outcome =
        ⟨msgs, true, err, none⟩ := by
  intro msgs hydrated err memory prompt outcome
  simp [sendUserPrompt]

/-- C6 counterexample: a POST whose body is not valid JSON lands in the
generic catch block: the relay responds 500 — a server error, not the
claimed client-error (4xx) — though it does make no upstream call. -/
theorem invalid_json_body_gets_500_not_4xx :
    (handler "POST".toList "\x7b".toList (some "k".toList) ⟨200, true, []⟩ =
      ⟨500, .json unexpectedErrorMsg, false⟩) ∧
    ¬ (400 ≤ (handler "POST".toList "\x7b".toList (some "k".toList)
          ⟨200, true, []⟩).status ∧
        (handler "POST".toList "\x7b".toList (some "k".toList)
          ⟨200, true, []⟩).status < 500) := by
  refine ⟨rfl, ?_⟩
  decide

/-- C6 amended: with the credential configured, a POST body that parses
as JSON to a non-null value whose `messages` property is not an array is
rejected with 400 before any upstream call; a body that does not parse
(or parses to `null`, whose property access throws) is rejected with 500
by the generic catch block, likewise before any upstream call.  Element
shape (role/content pairs) is not validated. -/
theorem malformed_body_rejected_before_upstream :
    ∀ (rawBody k : List Char) (upstream : UpstreamResponse), k ≠ [] →
      (parseJson rawBody = none →
        handler "POST".toList rawBody (some k) upstream =
          ⟨500, .json unexpectedErrorMsg, false⟩) ∧
      (∀ j, parseJson rawBody = some j → getMessagesField j = .error () →
        handler "POST".toList rawBody (some k) upstream =
          ⟨500, .json unexpectedErrorMsg, false⟩) ∧
      (∀ j mfield, parseJson rawBody = some j →
        getMessagesField j = .ok mfield → isJsonArray mfield = false →
        handler "POST".toList rawBody (some k) upstream =
          ⟨400, .json invalidPayloadMsg, false⟩) := by
  intro rawBody k upstream hk
  have hk2 : k.isEmpty = false := by
    cases k with
    | nil => exact absurd rfl hk
    | cons a as => rfl
  refine ⟨?_, ?_, ?_⟩
  · intro hp
    simp [handler, hk2, hp]
  · intro j hp hm
    simp [handler, hk2, hp, hm]
  · intro j mfield hp hm harr
    simp [handler, hk2, hp, hm, harr]

/-- C6 amended, witness: the three rejection shapes at concrete bodies —
unparsable `"{"`, the JSON literal `null`, and an object whose `messages`
is the number 4. -/
theorem malformed_body_rejected_before_upstream_witness :
    (handler "POST".toList "\x7b".toList (some "k".toList) ⟨200, true, []⟩ =
      ⟨500, .json unexpectedErrorMsg, false⟩) ∧
    (handler "POST".toList "null".toList (some "k".toList) ⟨200, true, []⟩ =
      ⟨500, .json unexpectedErrorMsg, false⟩) ∧
    (handler "POST".toList "\x7b\x22messages\x22:4\x7d".toList (some "k".toList)
        ⟨200, true, []⟩ =
      ⟨400, .json invalidPayloadMsg, false⟩) :=
  ⟨(malformed_body_rejected_before_upstream "\x7b".toList "k".toList
      ⟨200, true, []⟩ (by decide)).1 rfl,
   (malformed_body_rejected_before_upstream "null".toList "k".toList
      ⟨200, true, []⟩ (by decide)).2.1 .null rfl rfl,
   (malformed_body_rejected_before_upstream "\x7b\x22messages\x22:4\x7d".toList
      "k".toList ⟨200, true, []⟩ (by decide)).2.2
     (.obj [("messages".toList, .num "4".toList)]) (some (.num "4".toList))
     rfl rfl rfl⟩

/-- C1: for a POST whose body parses to a value with an array `messages`
field, when the upstream call returns an ok status with a body, the relay
answers 200 and writes exactly the chunks read from the upstream body, in
order, ending its output exactly when the upstream stream ends or
errors. -/
theorem relay_forwards_upstream_bytes_verbatim :
    ∀ (rawBody k : List Char) (j : Json) (ms : List Json) (es : List UpEvent)
      (st : Nat),
      k ≠ [] →
      parseJson rawBody = some j →
      getMessagesField j = .ok (some (.arr ms)) →
      200 ≤ st → st < 300 →
      handler "POST".toList rawBody (some k) ⟨st, true, es⟩ =
        ⟨200, .stream (upstreamBytesRead es) (upstreamTerminates es), true⟩ := by
  intro rawBody k j ms es st hk hp hm h200 h300
  have hk2 : k.isEmpty = false := by
    cases k with
    | nil => exact absurd rfl hk
    | cons a as => rfl
  simp [handler, hk2, hp, hm, isJsonArray, h200, h300,
    pipeWritten_eq_read, pipeClosed_eq_terminates]

/-- C1 witness: a concrete valid request whose upstream delivers the
bytes "hi" and then ends. -/
theorem relay_forwards_upstream_bytes_verbatim_witness :
    handler "POST".toList "\x7b\x22messages\x22:[]\x7d".toList
        (some "k".toList) ⟨200, true, [.data [104, 105], .ended]⟩ =
      ⟨200, .stream (upstreamBytesRead [.data [104, 105], .ended])
        (upstreamTerminates [.data [104, 105], .ended]), true⟩ :=
  relay_forwards_upstream_bytes_verbatim
    "\x7b\x22messages\x22:[]\x7d".toList "k".toList
    (.obj [("messages".toList, .arr [])]) [] [.data [104, 105], .ended] 200
    (by decide) rfl rfl (by decide) (by decide)

/-- C3: once the line loop meets a data line whose payload is the
`[DONE]` sentinel, the turn ends right there: the result is the content
accumulated up to that line with the done flag set, no later line of the
same decoded chunk and no later chunk contributes. -/
theorem done_sentinel_terminates_turn :
    ∀ (content : List Char) (pend : List Nat) (chunk : List Nat)
      (cs : List (List Nat)) (ls1 : List (List Char)) (d : List Char)
      (ls2 : List (List Char)),
      splitNl (utf8DecodeChunk pend chunk).1 = ls1 ++ d :: ls2 →
      (jsTrim d).isEmpty = false →
      "data:".toList.isPrefixOf (jsTrim d) = true →
      stripDataTag (jsTrim d) = doneLit →
      runReadLoop content pend (chunk :: cs) =
        ((processLines content (ls1 ++ [d])).1, true) := by
  intro content pend chunk cs ls1 d ls2 hsplit h1 h2 h3
  have hd : lineAct d = .done := by
    simp only [lineAct, h1, h3]
    simp only [Bool.false_eq_true, if_false, if_true]
    simp [h2]
    simpa using h2
  have h := processLines_done_prefix d hd ls1 content ls2
  simp only [runReadLoop, hsplit, h.1]
  simp [h.2]

/-- C3 witness: a chunk holding the sentinel line followed by a further
data line, with one more chunk queued behind it; neither is processed. -/
theorem done_sentinel_terminates_turn_witness :
    runReadLoop "x".toList [] [asciiBytes "data: [DONE]\ndata: y",
        asciiBytes "data: z"] =
      ((processLines "x".toList ["data: [DONE]".toList]).1, true) := by
  have h := done_sentinel_terminates_turn "x".toList []
    (asciiBytes "data: [DONE]\ndata: y") [asciiBytes "data: z"]
    [] "data: [DONE]".toList ["data: y".toList] rfl rfl rfl rfl
  simpa using h

/-- C4: a data line whose payload is not valid JSON is skipped — the
accumulated content is unchanged and the turn is not aborted — and a
well-formed data line immediately after it still has its delta
appended. -/
theorem malformed_payload_skipped_next_applied :
    ∀ (content bad good dlt : List Char) (rest rest2 : List (List Char)),
      (jsTrim bad).isEmpty = false →
      "data:".toList.isPrefixOf (jsTrim bad) = true →
      stripDataTag (jsTrim bad) ≠ doneLit →
      parseJson (stripDataTag (jsTrim bad)) = none →
      lineAct good = .append dlt →
      processLines content (bad :: rest) = processLines content rest ∧
      processLines content (bad :: good :: rest2) =
        processLines (content ++ dlt) rest2 := by
  intro content bad good dlt rest rest2 h1 h2 h3 h4 hgood
  have hbad : lineAct bad = .skip := by
    simp [lineAct, h1, h2, h3, payloadDelta, h4]
  exact ⟨by simp [processLines, hbad], by simp [processLines, hbad, hgood]⟩

/-- C4 witness: an unparsable payload followed by a well-formed delta
line; the bad line is a no-op and the good line appends "ok". -/
theorem malformed_payload_skipped_next_applied_witness :
    processLines "x".toList ["data: \x7bnot-json".toList] =
      processLines "x".toList [] ∧
    processLines "x".toList ["data: \x7bnot-json".toList,
        "data: \x7b\x22choices\x22:[\x7b\x22delta\x22:\x7b\x22content\x22:\x22ok\x22\x7d\x7d]\x7d".toList] =
      processLines ("x".toList ++ "ok".toList) [] :=
  malformed_payload_skipped_next_applied "x".toList
    "data: \x7bnot-json".toList
    "data: \x7b\x22choices\x22:[\x7b\x22delta\x22:\x7b\x22content\x22:\x22ok\x22\x7d\x7d]\x7d".toList
    "ok".toList [] [] rfl rfl (by decide) rfl rfl

/-- C9: a turn that ends in a network failure or a non-successful relay
response finishes with streaming cleared, the generic retryable error
set, and the partial assistant message kept exactly when it already
received content (the catch block's filter also drops any other
empty-content assistant message, which the claim does not mention). -/
theorem failed_turn_filters_empty_partial :
    ∀ (memory : List Char) (msgs history : List Msg) (outcome : FetchOutcome),
      history ≠ [] →
      turnFails outcome = true →
      sendTextMessage memory msgs history outcome =
        ⟨msgs.filter keepMsg ++
          (if (partialContent outcome).isEmpty then []
           else [⟨.assistant, partialContent outcome⟩]),
         false, some genericUiError,
         some ((if memory.isEmpty then [systemPromptMsg]
                else [systemPromptMsg, memoryMsg memory]) ++ history)⟩ := by
  intro memory msgs history outcome hne hf
  have hhe : history.isEmpty = false := by
    cases history with
    | nil => exact absurd rfl hne
    | cons a as => rfl
  cases outcome with
  | networkError =>
    simp [sendTextMessage, hhe, partialContent]
  | response st hb chunks ek =>
    by_cases hok : (decide (200 ≤ st ∧ st < 300) && hb) = true
    · have hok' : (200 ≤ st ∧ st < 300) ∧ hb = true := by simpa using hok
      obtain ⟨⟨ha, hc⟩, hbt⟩ := hok'
      have hfail : ek = StreamEndKind.errored ∧
          (runReadLoop [] [] chunks).2 = false := by
        simp [turnFails] at hf
        rcases hf with (h | h) | h
        · rcases h with h | h <;> omega
        · rw [hbt] at h; exact absurd h (by simp)
        · exact h
      obtain ⟨hek, hdone⟩ := hfail
      subst hek
      simp only [sendTextMessage, hhe, Bool.false_eq_true, if_false, hok,
        if_true, hdone, partialContent]
      cases hacc : (runReadLoop [] [] chunks).1 with
      | nil => simp [hacc, keepMsg, List.filter_append, ha, hc, hbt]
      | cons a as => simp [hacc, keepMsg, List.filter_append, ha, hc, hbt]
    · have hok' : ¬ ((200 ≤ st ∧ st < 300) ∧ hb = true) := by simpa using hok
      simp [sendTextMessage, hhe, hok', partialContent]

/-- C9 witness: a fetch that throws with one prior user message; no
assistant message was appended, the error is set. -/
theorem failed_turn_filters_empty_partial_witness :
    sendTextMessage [] [] [⟨.user, "Hi".toList⟩] .networkError =
      ⟨[], false, some genericUiError,
       some [systemPromptMsg, ⟨.user, "Hi".toList⟩]⟩ := by
  have h := failed_turn_filters_empty_partial [] [] [⟨.user, "Hi".toList⟩]
    .networkError (by decide) rfl
  simpa using h

/-- Evaluation shape of the summary: the joined digest, capped at 600 by
truncation to 597 characters plus "..." (the guard branches for an empty
recent list or no lines coincide with an empty digest). -/
theorem generateConversationSummary_eq_digest (history : List Msg) :
    generateConversationSummary history =
      if 600 < (conversationDigest history).length then
        (conversationDigest history).take 597 ++ "...".toList
      else conversationDigest history := by
  simp only [generateConversationSummary, conversationDigest]
  by_cases h1 : (sliceLast MAX_MEMORY_MESSAGES
      (history.filter isUserOrAssistant)).isEmpty
  · rw [List.isEmpty_iff] at h1
    simp [h1, summaryLines, List.intercalate]
  · by_cases h2 : (summaryLines (sliceLast MAX_MEMORY_MESSAGES
        (history.filter isUserOrAssistant))).isEmpty
    · rw [List.isEmpty_iff] at h2
      simp [h1, h2, List.intercalate]
    · simp [h1, h2]

/-- C10: the conversation summary is a function of only the six most
recent user/assistant messages, never exceeds 600 characters, and a
joined digest longer than 600 is truncated to 597 characters plus
"...". -/
theorem summary_bounded_and_recent :
    ∀ history : List Msg,
      generateConversationSummary history =
        generateConversationSummary
          (sliceLast MAX_MEMORY_MESSAGES (history.filter isUserOrAssistant)) ∧
      (generateConversationSummary history).length ≤ 600 ∧
      (600 < (conversationDigest history).length →
        generateConversationSummary history =
          (conversationDigest history).take 597 ++ "...".toList) := by
  intro history
  refine ⟨?_, ?_, ?_⟩
  · simp only [generateConversationSummary, sliceLast_recent_idem]
  · rw [generateConversationSummary_eq_digest]
    split
    · simp only [List.length_append, List.length_take]
      have h3 : ("...".toList).length = 3 := rfl
      rw [h3, Nat.min_def]
      split <;> omega
    · rename_i hlen
      omega
  · intro hlong
    rw [generateConversationSummary_eq_digest, if_pos hlong]

set_option maxRecDepth 20000 in
/-- C10 witness: a single 601-character user message; the digest is 607
characters long and the summary is the capped form. -/
theorem summary_bounded_and_recent_witness :
    600 < (conversationDigest [⟨.user, List.replicate 601 'a'⟩]).length ∧
    generateConversationSummary [⟨.user, List.replicate 601 'a'⟩] =
      (conversationDigest [⟨.user, List.replicate 601 'a'⟩]).take 597 ++
        "...".toList :=
  ⟨by decide,
   (summary_bounded_and_recent [⟨.user, List.replicate 601 'a'⟩]).2.2 (by decide)⟩

end EcoAI
